import Mathlib

/-!
Verification of the news aggregation and daily-digest pipeline of the
stock-tracker app (lib/utils.ts, lib/actions/finnhub.actions.ts,
lib/actions/watchlist.actions.ts, lib/inngest/functions.ts).

Modelling conventions:
* JavaScript strings are Lean `String`s; an optional/missing string field is
  modelled as `""` (the only falsy string), so JS truthiness checks such as
  `article.source || dflt` become `if s = "" then dflt else s`.
* JS numbers that hold integers (article ids, unix-second datetimes) are `Int`.
* A `fetch`/database call that may reject is an `Except String _` value held in
  an environment record; the functions under verification are deterministic
  functions of that environment.
* `Array.prototype.sort` with comparator `(a, b) => b.datetime - a.datetime`
  is a stable sort by `datetime` descending, modelled by stable insertion sort.
-/

namespace StockTracker

/-- Raw news article from the upstream feed (global `RawNewsArticle` type).
Optional string fields use `""` for "absent/falsy". -/
structure RawNewsArticle where
  id : Int
  headline : String
  summary : String
  url : String
  datetime : Int
  source : String := ""
  image : String := ""
  category : String := ""
  related : String := ""
  deriving Repr, DecidableEq

/-- Formatted article (`MarketNewsArticle` shape produced by `formatArticle`). -/
structure MarketNewsArticle where
  id : Int
  headline : String
  summary : String
  source : String
  url : String
  datetime : Int
  image : String
  category : String
  related : String
  deriving Repr, DecidableEq

/-- Model of JavaScript `String.prototype.trim`: strip leading and trailing
whitespace. -/
def jsTrim (s : String) : String :=
  ⟨((s.data.dropWhile Char.isWhitespace).reverse.dropWhile
    Char.isWhitespace).reverse⟩

/-- Model of JavaScript `s.substring(0, n)` (by code units, here characters). -/
def jsSubstring (s : String) (n : Nat) : String :=
  ⟨s.data.take n⟩

/-- Model of JavaScript `String.prototype.toUpperCase`. -/
def jsToUpperCase (s : String) : String :=
  ⟨s.data.map Char.toUpper⟩

/-- lib/utils.ts `validateArticle`: truthiness of `headline && summary && url
&& datetime`. -/
def validateArticle (article : RawNewsArticle) : Bool :=
  article.headline != "" && article.summary != "" && article.url != "" &&
    article.datetime != 0

/-- lib/utils.ts `formatArticle`.  The company-mode id is
`Date.now() + Math.random()`, a non-deterministic fresh value; it is supplied
here as the explicit argument `freshId`. -/
def formatArticle (freshId : Int) (article : RawNewsArticle)
    (isCompanyNews : Bool) (symbol : Option String) (index : Nat) :
    MarketNewsArticle :=
  { id := if isCompanyNews then freshId else article.id + (index : Int)
    headline := jsTrim article.headline
    summary :=
      jsSubstring (jsTrim article.summary) (if isCompanyNews then 200 else 150)
        ++ "..."
    source :=
      if article.source = "" then
        (if isCompanyNews then "Company News" else "Market News")
      else article.source
    url := article.url
    datetime := article.datetime
    image := article.image
    category :=
      if isCompanyNews then "company"
      else (if article.category = "" then "general" else article.category)
    related := if isCompanyNews then symbol.getD "" else article.related }

/-! ### getNews (lib/actions/finnhub.actions.ts) -/

/-- Environment of upstream effects used by `getNews`: the API key
(`""` = not configured), the per-symbol company-news fetch, the general-news
fetch, and the supply of non-deterministic fresh ids consumed by company-mode
formatting (indexed by how many items were already collected). -/
structure NewsEnv where
  token : String
  companyNews : String → Except String (List RawNewsArticle)
  generalNews : Except String (List RawNewsArticle)
  freshId : Nat → Int

/-- `cleanSymbols`: trim, uppercase, drop empties (`filter(Boolean)`). -/
def cleanSymbols (symbols : List String) : List String :=
  (symbols.map (fun s => jsToUpperCase (jsTrim s))).filter (fun s => s ≠ "")

/-- The `perSymbolArticles` record: each symbol's fetch result filtered by
`validateArticle`; a rejected fetch is caught and recorded as `[]`. -/
def perSymbolMap (env : NewsEnv) : String → List RawNewsArticle :=
  fun sym =>
    match env.companyNews sym with
    | .ok articles => articles.filter (fun a => validateArticle a)
    | .error _ => []

/-- Pointwise update of the mutable `perSymbolArticles` record
(`list.shift()` writes the shortened list back at key `sym`). -/
def updateMap (m : String → List RawNewsArticle) (k : String)
    (v : List RawNewsArticle) : String → List RawNewsArticle :=
  fun s => if s = k then v else m s

/-- One round of the round-robin inner loop (`for i in 0..cleanSymbols.length`):
for each symbol in order, shift the head of its remaining list, push its
company-mode formatting, and stop once six items are collected. -/
def rrPass (freshId : Nat → Int) (round : Nat) :
    List String → (String → List RawNewsArticle) → List MarketNewsArticle →
    (String → List RawNewsArticle) × List MarketNewsArticle
  | [], m, collected => (m, collected)
  | sym :: rest, m, collected =>
    match m sym with
    | [] => rrPass freshId round rest m collected
    | article :: tl =>
      let m' := updateMap m sym tl
      if validateArticle article then
        let collected' := collected ++
          [formatArticle (freshId collected.length) article true (some sym)
            round]
        if 6 ≤ collected'.length then (m', collected')
        else rrPass freshId round rest m' collected'
      else rrPass freshId round rest m' collected

/-- The outer round loop (`for round in 0..maxArticles`), with the remaining
number of rounds as fuel and the current round index carried along. -/
def rrRounds (freshId : Nat → Int) (syms : List String) :
    Nat → Nat → (String → List RawNewsArticle) → List MarketNewsArticle →
    List MarketNewsArticle
  | 0, _, _, collected => collected
  | fuel + 1, round, m, collected =>
    let p := rrPass freshId round syms m collected
    if 6 ≤ p.2.length then p.2
    else rrRounds freshId syms fuel (round + 1) p.1 p.2

/-- The round-robin interleave of `getNews` (lines 124–137). -/
def roundRobin (freshId : Nat → Int) (syms : List String)
    (m : String → List RawNewsArticle) : List MarketNewsArticle :=
  rrRounds freshId syms 6 0 m []

/-- The list collected by the symbol-driven path before the final sort. -/
def symbolCollected (env : NewsEnv) (symbols : List String) :
    List MarketNewsArticle :=
  roundRobin env.freshId (cleanSymbols symbols) (perSymbolMap env)

/-- Stable descending insertion by `datetime` (stable sort with comparator
`(a, b) => (b.datetime || 0) - (a.datetime || 0)`). -/
def insertDesc (a : MarketNewsArticle) :
    List MarketNewsArticle → List MarketNewsArticle
  | [] => [a]
  | b :: t =>
    if b.datetime ≤ a.datetime then a :: b :: t else b :: insertDesc a t

/-- `collected.sort((a, b) => (b.datetime || 0) - (a.datetime || 0))`. -/
def sortByDatetimeDesc (l : List MarketNewsArticle) : List MarketNewsArticle :=
  l.foldr insertDesc []

/-- The composite dedup key `` `${art.id}-${art.url}-${art.headline}` ``. -/
def dedupKey (a : RawNewsArticle) : String :=
  toString a.id ++ "-" ++ a.url ++ "-" ++ a.headline

/-- The general-feed dedup loop (lines 151–161): skip invalid items, skip seen
composite keys, and stop once 20 unique items are gathered (`cnt` is the
number of unique items pushed so far). -/
def dedupNews : List RawNewsArticle → List String → Nat → List RawNewsArticle
  | [], _, _ => []
  | art :: rest, seen, cnt =>
    if ¬ validateArticle art then dedupNews rest seen cnt
    else if dedupKey art ∈ seen then dedupNews rest seen cnt
    else if 20 ≤ cnt + 1 then [art]
    else art :: dedupNews rest (dedupKey art :: seen) (cnt + 1)

/-- `unique.slice(0, maxArticles).map((a, idx) => formatArticle(a, false,
undefined, idx))`. -/
def formatGeneral (unique : List RawNewsArticle) : List MarketNewsArticle :=
  (unique.take 6).enum.map (fun p => formatArticle 0 p.2 false none p.1)

/-- The `collected` list as seen at the branch point of `getNews`: the
round-robin result when any clean symbols exist, and `[]` otherwise (the
whole symbol block is skipped). -/
def newsCollected (env : NewsEnv) (symbols : List String) :
    List MarketNewsArticle :=
  if 0 < (cleanSymbols symbols).length then symbolCollected env symbols
  else []

/-- Body of `getNews` inside the `try`: missing token throws, a non-empty
symbol list is served round-robin (followed by the descending sort and
`slice(0, 6)`) when anything was collected, otherwise the general feed is
fetched, deduplicated, capped and formatted. -/
def getNewsCore (env : NewsEnv) (symbols : List String) :
    Except String (List MarketNewsArticle) :=
  if env.token = "" then .error "FINNHUB API key is not configured"
  else if 0 < (newsCollected env symbols).length then
    .ok ((sortByDatetimeDesc (newsCollected env symbols)).take 6)
  else
    match env.generalNews with
    | .error e => .error e
    | .ok general => .ok (formatGeneral (dedupNews general [] 0))

/-- `getNews`: the surrounding `catch` rethrows every failure as
`"Failed to fetch news"`. -/
def getNews (env : NewsEnv) (symbols : List String) :
    Except String (List MarketNewsArticle) :=
  match getNewsCore env symbols with
  | .ok res => .ok res
  | .error _ => .error "Failed to fetch news"

/-! ### getWatchlistSymbolsByEmail (lib/actions/watchlist.actions.ts) -/

/-- Projection of a BetterAuth `user` document as read by
`getWatchlistSymbolsByEmail`: the optional BetterAuth `id` and the string form
of the Mongo `_id` (`""` = missing/falsy in either case). -/
structure UserDoc where
  id : String := ""
  mongoId : String := ""
  deriving Repr, DecidableEq

/-- A watchlist row projected to its `symbol` field. -/
structure WatchItem where
  symbol : String
  deriving Repr, DecidableEq

/-- Database environment of `getWatchlistSymbolsByEmail`: connecting may
reject, `mongoose.connection.db` may be absent, and both queries may reject. -/
structure WatchlistDbEnv where
  connect : Except String Unit
  dbPresent : Bool
  findUserByEmail : String → Except String (Option UserDoc)
  findWatchlist : String → Except String (List WatchItem)

/-- Body of the `try` block of `getWatchlistSymbolsByEmail`. -/
def getWatchlistSymbolsCore (env : WatchlistDbEnv) (email : String) :
    Except String (List String) :=
  match env.connect with
  | .error e => .error e
  | .ok _ =>
    if ¬ env.dbPresent then .error "MongoDB connection not found"
    else
      match env.findUserByEmail email with
      | .error e => .error e
      | .ok none => .ok []
      | .ok (some user) =>
        let userId := if user.id ≠ "" then user.id else user.mongoId
        if userId = "" then .ok []
        else
          match env.findWatchlist userId with
          | .error e => .error e
          | .ok items => .ok (items.map (fun i => i.symbol))

/-- `getWatchlistSymbolsByEmail`: empty email short-circuits to `[]`, and the
surrounding `catch` converts every rejection into `[]` — the function always
returns an array and never throws. -/
def getWatchlistSymbolsByEmail (env : WatchlistDbEnv) (email : String) :
    List String :=
  if email = "" then []
  else
    match getWatchlistSymbolsCore env email with
    | .ok symbols => symbols
    | .error _ => []

/-! ### sendDailyNewsSummary (lib/inngest/functions.ts) -/

/-- Minimal user shape returned by `getAllUsersFormNewsEmail`. -/
structure User where
  id : String
  email : String
  name : String
  deriving Repr, DecidableEq

/-- The `{ success, message }` value returned by the Inngest function. -/
structure RunResult where
  success : Bool
  message : String
  deriving Repr, DecidableEq

/-- Environment of external effects used by `sendDailyNewsSummary`:
the recipient list (`getAllUsersFormNewsEmail` never throws), the per-email
watchlist lookup (`getWatchlistSymbolsByEmail` never throws), `getNews`
(may throw), the AI summarization step keyed by the step id's user email and
the article list embedded in the prompt (throwing = `.error`; a missing text
part = `.ok none`), the email send (may throw), and today's date label. -/
structure DigestEnv where
  users : List User
  watchlist : String → List String
  news : List String → Except String (List MarketNewsArticle)
  aiInfer : String → List MarketNewsArticle → Except String (Option String)
  send : String → String → String → Except String Unit
  today : String

/-- Step 2 body for one user: watchlist lookup, `getNews(symbols)` capped at 6,
general-feed retry when empty, and the per-user `catch` that records `[]`. -/
def fetchUserNewsOne (env : DigestEnv) (u : User) : List MarketNewsArticle :=
  let symbols := env.watchlist u.email
  match env.news symbols with
  | .error _ => []
  | .ok articles =>
    let articles := articles.take 6
    if articles.isEmpty then
      match env.news [] with
      | .error _ => []
      | .ok general => general.take 6
    else articles

/-- Step 2 (`fetch-user-news`): every user is kept, with `[]` on failure. -/
def fetchStep (env : DigestEnv) : List (User × List MarketNewsArticle) :=
  env.users.map (fun u => (u, fetchUserNewsOne env u))

/-- Step 3 body for one user: `null` exactly on a thrown summarization; a
successful response with a missing or empty text part falls back to
`"No market news."`. -/
def summarizeOne (env : DigestEnv) (u : User)
    (articles : List MarketNewsArticle) : Option String :=
  match env.aiInfer u.email articles with
  | .error _ => none
  | .ok part =>
    some (match part with
      | some text => if text = "" then "No market news." else text
      | none => "No market news.")

/-- Step 3 (`userNewsSummaries`). -/
def summarizeStep (env : DigestEnv)
    (results : List (User × List MarketNewsArticle)) :
    List (User × Option String) :=
  results.map (fun p => (p.1, summarizeOne env p.1 p.2))

/-- The delivery attempts of step 4: `Promise.all` starts one send per
recipient with a non-`null` summary (a `null` summary returns `false` without
attempting a send); each attempt's outcome is recorded with its address. -/
def sendOutcomes (env : DigestEnv) (summaries : List (User × Option String)) :
    List (String × Except String Unit) :=
  summaries.filterMap (fun p =>
    match p.2 with
    | none => none
    | some content => some (p.1.email, env.send p.1.email env.today content))

/-- Step 4 (`send-news-emails`): `Promise.all` rejects with the first rejected
send, otherwise resolves. -/
def sendStep (env : DigestEnv) (summaries : List (User × Option String)) :
    Except String Unit :=
  match (sendOutcomes env summaries).find?
      (fun r => match r.2 with | .error _ => true | .ok _ => false) with
  | some (_, .error e) => .error e
  | _ => .ok ()

/-- `sendDailyNewsSummary`: early `success: false` exit on an empty recipient
list; otherwise fetch, summarize and send, returning `success: true` — a
rejection of the send step propagates out of the run instead. -/
def runDailyDigest (env : DigestEnv) : Except String RunResult :=
  if env.users.length = 0 then
    .ok ⟨false, "No users found for news email"⟩
  else
    let results := fetchStep env
    let summaries := summarizeStep env results
    match sendStep env summaries with
    | .error e => .error e
    | .ok _ => .ok ⟨true, "Daily news summary emails sent successfully"⟩

/-! ### Spec-side pipeline for the refinement claim on the general path -/

/-- Modelled from the spec: deduplication by the composite key with the
first occurrence winning, scanning in upstream order (no cap; the cap is
applied afterwards by the spec's pipeline). -/
def dedupFirstWins : List RawNewsArticle → List String → List RawNewsArticle
  | [], _ => []
  | a :: rest, seen =>
    if dedupKey a ∈ seen then dedupFirstWins rest seen
    else a :: dedupFirstWins rest (dedupKey a :: seen)

/-- Modelled from the spec: the general-feed path as the spec words it —
filter to valid items, deduplicate by `id`+`url`+`headline` with first
occurrence winning, cap the deduplicated list at 20, then format the first 6
in general mode with a sequential index. -/
def generalSpecPipeline (payload : List RawNewsArticle) :
    List MarketNewsArticle :=
  let valid := payload.filter (fun a => validateArticle a)
  let deduped := dedupFirstWins valid []
  let capped := deduped.take 20
  (capped.take 6).enum.map (fun p => formatArticle 0 p.2 false none p.1)

/-! ### Concrete fixtures used by witnesses and counterexamples -/

/-- Fixture: a valid raw article with the given id and datetime. -/
def mkArt (i : Int) (dt : Int) : RawNewsArticle :=
  { id := i, headline := "Headline", summary := "Summary", url := "https://x",
    datetime := dt }

/-- Fixture: raw article whose summary is 300 whitespace characters. -/
def rawPad : RawNewsArticle :=
  { id := 1, headline := "h", summary := String.mk (List.replicate 300 ' '),
    url := "u", datetime := 5 }

/-- Fixture: raw article whose summary is 300 non-whitespace characters. -/
def rawA300 : RawNewsArticle :=
  { id := 1, headline := "h", summary := String.mk (List.replicate 300 'a'),
    url := "u", datetime := 5 }

/-- Fixture: a general-feed payload with one duplicated item. -/
def genPayload : List RawNewsArticle :=
  [mkArt 11 1, mkArt 11 1, mkArt 12 2, mkArt 13 3,
    mkArt 14 4, mkArt 15 5, mkArt 16 6, mkArt 17 7]

/-- Fixture: upstream environment with two company feeds and a general feed. -/
def envSym : NewsEnv :=
  { token := "tok"
    companyNews := fun s =>
      if s = "AAPL" then
        .ok [mkArt 1 10, mkArt 2 9, mkArt 3 8, mkArt 4 7]
      else if s = "MSFT" then .ok [mkArt 5 100]
      else .error "company fetch failed"
    generalNews := .ok genPayload
    freshId := fun n => 1000 + (n : Int) }

/-- Fixture: environment where every per-symbol fetch rejects but the general
feed succeeds. -/
def envCompFail : NewsEnv :=
  { envSym with companyNews := fun _ => .error "company fetch failed" }

/-- Fixture: environment with no API key configured. -/
def envNoTok : NewsEnv :=
  { envSym with token := "" }

/-- Fixture: environment whose general fetch and company fetches reject. -/
def envGenFail : NewsEnv :=
  { envSym with
    companyNews := fun _ => .error "company fetch failed"
    generalNews := .error "general fetch failed" }

/-- Fixture: recipients of the daily digest. -/
def user1 : User := { id := "1", email := "one@x", name := "One" }

/-- Fixture: the recipient whose summarization fails in the C4 scenario. -/
def user2 : User := { id := "2", email := "two@x", name := "Two" }

/-- Fixture: a third digest recipient. -/
def user3 : User := { id := "3", email := "three@x", name := "Three" }

/-- Fixture: a formatted article used as general-feed output. -/
def sampleMarket : MarketNewsArticle :=
  { id := 7, headline := "H", summary := "S...", source := "Market News",
    url := "https://x", datetime := 9, image := "", category := "general",
    related := "" }

/-- Fixture: three recipients; summarization throws exactly for `user2`;
every send succeeds. -/
def envDigest : DigestEnv :=
  { users := [user1, user2, user3]
    watchlist := fun _ => []
    news := fun _ => .ok []
    aiInfer := fun em _ =>
      if em = user2.email then .error "ai down" else .ok (some "Summary")
    send := fun _ _ _ => .ok ()
    today := "Today" }

/-- Fixture: a single recipient for whom every step succeeds. -/
def envAllOk : DigestEnv :=
  { users := [user1]
    watchlist := fun _ => []
    news := fun _ => .ok [sampleMarket]
    aiInfer := fun _ _ => .ok (some "Summary")
    send := fun _ _ _ => .ok ()
    today := "Today" }

/-- Fixture: a single recipient whose email delivery rejects. -/
def envSendFail : DigestEnv :=
  { envAllOk with send := fun _ _ _ => .error "smtp down" }

/-- Fixture: database environment whose watchlist query rejects for the one
existing user. -/
def dbEnvFix : WatchlistDbEnv :=
  { connect := .ok ()
    dbPresent := true
    findUserByEmail := fun e =>
      if e = "a@x" then .ok (some { id := "uid1", mongoId := "m1" })
      else .ok none
    findWatchlist := fun uid =>
      if uid = "uid1" then .error "db down" else .ok [] }

/-- Fixture: three-symbol environment for the round-robin fairness witness. -/
def envRR : NewsEnv :=
  { token := "tok"
    companyNews := fun s =>
      if s = "A" then .ok [mkArt 1 10, mkArt 2 9]
      else if s = "B" then .ok [mkArt 3 20, mkArt 4 19]
      else if s = "C" then .ok [mkArt 5 30, mkArt 6 29]
      else .ok []
    generalNews := .ok []
    freshId := fun n => 1000 + (n : Int) }

/-! ### Helper lemmas -/

theorem formatGeneral_length_le (unique : List RawNewsArticle) :
    (formatGeneral unique).length ≤ 6 := by
  simp only [formatGeneral, List.length_map, List.enum_length,
    List.length_take]
  exact Nat.min_le_left _ _

theorem getNewsCore_ok_length (env : NewsEnv) (symbols : List String)
    (res : List MarketNewsArticle) (h : getNewsCore env symbols = .ok res) :
    res.length ≤ 6 := by
  unfold getNewsCore at h
  by_cases ht : env.token = ""
  · simp [ht] at h
  · rw [if_neg ht] at h
    by_cases hlen : 0 < (newsCollected env symbols).length
    · rw [if_pos hlen] at h
      obtain rfl : (sortByDatetimeDesc (newsCollected env symbols)).take 6
          = res := by simpa using h
      simp only [List.length_take]
      exact Nat.min_le_left 6 _
    · rw [if_neg hlen] at h
      cases hgen : env.generalNews with
      | error e => rw [hgen] at h; exact absurd h (by simp)
      | ok general =>
        rw [hgen] at h
        obtain rfl : formatGeneral (dedupNews general [] 0) = res := by
          simpa using h
        exact formatGeneral_length_le _

theorem rrPass_extends (freshId : Nat → Int) (round : Nat) :
    ∀ (syms : List String) (m : String → List RawNewsArticle)
      (coll : List MarketNewsArticle),
      ∃ ext, (rrPass freshId round syms m coll).2 = coll ++ ext := by
  intro syms
  induction syms with
  | nil => intro m coll; exact ⟨[], by simp [rrPass]⟩
  | cons sym rest ih =>
    intro m coll
    cases hms : m sym with
    | nil => simpa [rrPass, hms] using ih m coll
    | cons article tl =>
      by_cases hv : validateArticle article
      · by_cases hlen : 5 ≤ coll.length
        · exact ⟨[formatArticle (freshId coll.length) article true (some sym)
            round], by simp [rrPass, hms, hv, hlen]⟩
        · obtain ⟨ext, hext⟩ := ih (updateMap m sym tl) (coll ++
            [formatArticle (freshId coll.length) article true (some sym)
              round])
          exact ⟨[formatArticle (freshId coll.length) article true (some sym)
            round] ++ ext, by simp [rrPass, hms, hv, hlen, hext]⟩
      · simpa [rrPass, hms, hv] using ih (updateMap m sym tl) coll

/-- One unfolding of the outer round loop. -/
theorem rrRounds_succ (freshId : Nat → Int) (syms : List String)
    (fuel round : Nat) (m : String → List RawNewsArticle)
    (coll : List MarketNewsArticle) :
    rrRounds freshId syms (fuel + 1) round m coll =
      if 6 ≤ (rrPass freshId round syms m coll).2.length
      then (rrPass freshId round syms m coll).2
      else rrRounds freshId syms fuel (round + 1)
        (rrPass freshId round syms m coll).1
        (rrPass freshId round syms m coll).2 := rfl

theorem rrRounds_extends (freshId : Nat → Int) (syms : List String) :
    ∀ (fuel round : Nat) (m : String → List RawNewsArticle)
      (coll : List MarketNewsArticle),
      ∃ ext, rrRounds freshId syms fuel round m coll = coll ++ ext := by
  intro fuel
  induction fuel with
  | zero => intro round m coll; exact ⟨[], by simp [rrRounds]⟩
  | succ fuel ih =>
    intro round m coll
    rw [rrRounds_succ]
    by_cases h : 6 ≤ (rrPass freshId round syms m coll).2.length
    · rw [if_pos h]
      exact rrPass_extends freshId round syms m coll
    · rw [if_neg h]
      obtain ⟨e1, h1⟩ := rrPass_extends freshId round syms m coll
      obtain ⟨e2, h2⟩ := ih (round + 1) (rrPass freshId round syms m coll).1
        (rrPass freshId round syms m coll).2
      exact ⟨e1 ++ e2, by rw [h2, h1, List.append_assoc]⟩

theorem mem_insertDesc (a x : MarketNewsArticle) :
    ∀ l, x ∈ insertDesc a l → x = a ∨ x ∈ l := by
  intro l
  induction l with
  | nil => intro h; simpa [insertDesc] using h
  | cons b t ih =>
    intro h
    by_cases hc : b.datetime ≤ a.datetime
    · rw [insertDesc, if_pos hc] at h
      rcases List.mem_cons.mp h with h' | h'
      · exact Or.inl h'
      · exact Or.inr h'
    · rw [insertDesc, if_neg hc] at h
      rcases List.mem_cons.mp h with h' | h'
      · exact Or.inr (h' ▸ List.mem_cons_self b t)
      · rcases ih h' with h'' | h''
        · exact Or.inl h''
        · exact Or.inr (List.mem_cons_of_mem b h'')

theorem pairwise_insertDesc (a : MarketNewsArticle) :
    ∀ l, l.Pairwise (fun x y => y.datetime ≤ x.datetime) →
      (insertDesc a l).Pairwise (fun x y => y.datetime ≤ x.datetime) := by
  intro l
  induction l with
  | nil => intro _; simp [insertDesc]
  | cons b t ih =>
    intro h
    rcases List.pairwise_cons.mp h with ⟨hb, ht⟩
    by_cases hc : b.datetime ≤ a.datetime
    · rw [insertDesc, if_pos hc]
      refine List.pairwise_cons.mpr ⟨?_, h⟩
      intro y hy
      rcases List.mem_cons.mp hy with rfl | hy'
      · exact hc
      · exact le_trans (hb y hy') hc
    · rw [insertDesc, if_neg hc]
      refine List.pairwise_cons.mpr ⟨?_, ih ht⟩
      intro y hy
      rcases mem_insertDesc a y t hy with rfl | hy'
      · exact le_of_not_le hc
      · exact hb y hy'

theorem pairwise_sortByDatetimeDesc (l : List MarketNewsArticle) :
    (sortByDatetimeDesc l).Pairwise (fun x y => y.datetime ≤ x.datetime) := by
  induction l with
  | nil => simp [sortByDatetimeDesc]
  | cons a t ih => exact pairwise_insertDesc a _ ih

/-- The dedup loop with `seen` keys and `cnt` items already collected agrees
with uncapped first-wins dedup of the valid items, truncated to the room
left under the cap of 20. -/
theorem dedupNews_eq_dedupFirstWins :
    ∀ (l : List RawNewsArticle) (seen : List String) (cnt : Nat),
      cnt < 20 →
      dedupNews l seen cnt =
        (dedupFirstWins (l.filter (fun a => validateArticle a)) seen).take
          (20 - cnt) := by
  intro l
  induction l with
  | nil => intro seen cnt _; simp [dedupNews, dedupFirstWins]
  | cons a rest ih =>
    intro seen cnt hcnt
    by_cases hv : validateArticle a
    · by_cases hseen : dedupKey a ∈ seen
      · simp [dedupNews, hv, hseen, List.filter_cons, dedupFirstWins,
          ih seen cnt hcnt]
      · by_cases hfull : 20 ≤ cnt + 1
        · have h1 : 20 - cnt = 1 := by omega
          simp [dedupNews, hv, hseen, hfull, List.filter_cons,
            dedupFirstWins, h1]
        · have h1 : 20 - cnt = (20 - (cnt + 1)) + 1 := by omega
          simp [dedupNews, hv, hseen, hfull, List.filter_cons, dedupFirstWins,
            h1, ih (dedupKey a :: seen) (cnt + 1) (by omega)]
    · simp [dedupNews, hv, List.filter_cons, ih seen cnt hcnt]

/-- The addresses delivery is attempted to are exactly the emails of the
entries with a non-`null` summary, in order. -/
theorem sendOutcomes_fst (env : DigestEnv)
    (xs : List (User × Option String)) :
    (sendOutcomes env xs).map Prod.fst =
      xs.filterMap (fun p => p.2.map (fun _ => p.1.email)) := by
  induction xs with
  | nil => rfl
  | cons p rest ih =>
    rcases p with ⟨u, c⟩
    cases c with
    | none => simpa [sendOutcomes, List.filterMap_cons] using ih
    | some content => simpa [sendOutcomes, List.filterMap_cons] using ih

/-! ### Claims -/

/-- C1: for every input symbol list and every upstream feed response, the
list returned by `getNews` has length at most 6, on both the symbol-driven
path and the general-feed path. -/
theorem news_output_at_most_six (env : NewsEnv) (symbols : List String)
    (res : List MarketNewsArticle) (h : getNews env symbols = .ok res) :
    res.length ≤ 6 := by
  unfold getNews at h
  split at h
  · rename_i l hcore
    obtain rfl : l = res := by simpa using h
    exact getNewsCore_ok_length env symbols l hcore
  · exact absurd h (by simp)

/-- Witness for C1: on the two-symbol fixture the call succeeds and the bound
holds; the hypothesis is discharged by evaluation. -/
theorem news_output_at_most_six_witness :
    ∃ res, getNews envSym ["AAPL", "MSFT"] = .ok res ∧ res.length ≤ 6 := by
  refine ⟨(sortByDatetimeDesc (newsCollected envSym ["AAPL", "MSFT"])).take 6,
    rfl, ?_⟩
  exact news_output_at_most_six envSym ["AAPL", "MSFT"] _ rfl

set_option maxRecDepth 20000 in
/-- C7 counterexample: a raw summary of exactly 300 characters, all
whitespace, is trimmed to nothing before truncation, so the company-mode
formatted summary has 3 characters, not 203. -/
theorem formatArticle_trunc_counterexample :
    rawPad.summary.length = 300 ∧
      (formatArticle 0 rawPad true (some "AAPL") 0).summary.length ≠ 203 := by
  exact ⟨by decide, by decide⟩

/-- C7 amended: company mode trims the raw summary, truncates to 200
characters and appends "..." unconditionally; the formatted summary has
exactly 203 characters for every raw summary whose *trimmed* form has at
least 200 characters (in particular any length-300 summary with no leading or
trailing whitespace) — an all-whitespace length-300 summary trims below the
cap and yields fewer. -/
theorem formatArticle_trunc_amended (freshId : Int) (a : RawNewsArticle)
    (symbol : Option String) (index : Nat)
    (h : 200 ≤ (jsTrim a.summary).length) :
    (formatArticle freshId a true symbol index).summary.length = 203 := by
  have h1 : (formatArticle freshId a true symbol index).summary =
      jsSubstring (jsTrim a.summary) 200 ++ "..." := rfl
  have h2 : (jsSubstring (jsTrim a.summary) 200).length =
      min 200 (jsTrim a.summary).length := List.length_take _ _
  rw [h1, String.length_append, h2, Nat.min_eq_left h]
  rfl

set_option maxRecDepth 20000 in
/-- Witness for C7 amended: a 300-character non-whitespace summary trims to
itself and formats to exactly 203 characters. -/
theorem formatArticle_trunc_amended_witness :
    200 ≤ (jsTrim rawA300.summary).length ∧
      (formatArticle 0 rawA300 true (some "AAPL") 0).summary.length = 203 :=
  ⟨by decide, formatArticle_trunc_amended 0 rawA300 (some "AAPL") 0 (by decide)⟩

/-- C9: `getNews` fails as a whole call — propagating an error with no
partial result — when the API key is missing, and likewise when the
general-feed fetch fails after the symbol path collected nothing (there is no
fallback below the general feed). -/
theorem whole_call_failures_propagate (env : NewsEnv) (symbols : List String) :
    (env.token = "" →
      getNews env symbols = .error "Failed to fetch news") ∧
    (∀ e, symbolCollected env symbols = [] → env.generalNews = .error e →
      getNews env symbols = .error "Failed to fetch news") := by
  constructor
  · intro h
    simp [getNews, getNewsCore, h]
  · intro e hcoll hgen
    by_cases ht : env.token = ""
    · simp [getNews, getNewsCore, ht]
    · simp [getNews, getNewsCore, newsCollected, ht, hcoll, hgen]

/-- Witness for C9: a missing key and a failing general fetch each produce
the propagated failure on concrete environments. -/
theorem whole_call_failures_propagate_witness :
    getNews envNoTok [] = .error "Failed to fetch news" ∧
      getNews envGenFail ["ZZZ"] = .error "Failed to fetch news" :=
  ⟨(whole_call_failures_propagate envNoTok []).1 rfl,
    (whole_call_failures_propagate envGenFail ["ZZZ"]).2
      "general fetch failed" rfl rfl⟩

/-- C5: a rejected per-symbol fetch is not propagated — it is equivalent to
that symbol contributing zero articles (the other symbols are unaffected),
and whenever the interleave collects nothing the call behaves exactly like
the general-feed call `getNews(env, [])` instead of returning an empty digest
or rethrowing the per-symbol error. -/
theorem per_symbol_failure_isolated (env : NewsEnv) (symbols : List String)
    (s e : String) (hfail : env.companyNews s = .error e) :
    (getNews env symbols = getNews
      { env with companyNews :=
          fun t => if t = s then .ok [] else env.companyNews t } symbols) ∧
    (symbolCollected env symbols = [] →
      getNews env symbols = getNews env []) := by
  constructor
  · have hmap : perSymbolMap
        { env with companyNews :=
            fun t => if t = s then .ok [] else env.companyNews t } =
        perSymbolMap env := by
      funext t
      by_cases h : t = s
      · subst h; simp [perSymbolMap, hfail]
      · simp [perSymbolMap, h]
    simp only [getNews, getNewsCore, newsCollected, symbolCollected, hmap]
  · intro hcoll
    simp [getNews, getNewsCore, newsCollected, hcoll, cleanSymbols]

/-- Witness for C5: with every company fetch rejecting, the call equals both
the zero-article variant and the plain general-feed call. -/
theorem per_symbol_failure_isolated_witness :
    (getNews envCompFail ["ZZZ"] = getNews
      { envCompFail with companyNews :=
          fun t => if t = "ZZZ" then .ok [] else envCompFail.companyNews t }
      ["ZZZ"]) ∧
    getNews envCompFail ["ZZZ"] = getNews envCompFail [] :=
  ⟨(per_symbol_failure_isolated envCompFail ["ZZZ"] "ZZZ"
      "company fetch failed" rfl).1,
    (per_symbol_failure_isolated envCompFail ["ZZZ"] "ZZZ"
      "company fetch failed" rfl).2 rfl⟩

/-- C8: the general-feed path is a deterministic function of the upstream
payload — it equals the spec pipeline (filter to valid items, dedup by the
composite `id`+`url`+`headline` key with first occurrence winning in upstream
order, cap at 20, format the first 6 in general mode with a sequential
index), and any environment with the same token and payload yields the same
output. -/
theorem general_path_refines_spec (env : NewsEnv)
    (payload : List RawNewsArticle) (ht : env.token ≠ "")
    (hg : env.generalNews = .ok payload) :
    getNews env [] = .ok (generalSpecPipeline payload) ∧
    (∀ env' : NewsEnv, env'.token = env.token →
      env'.generalNews = env.generalNews → getNews env' [] = getNews env []) := by
  constructor
  · have hd := dedupNews_eq_dedupFirstWins payload [] 0 (by omega)
    simp only [getNews, getNewsCore, newsCollected, cleanSymbols, hg,
      generalSpecPipeline]
    rw [if_neg ht]
    simp [formatGeneral, hd]
  · intro env' htok hgen
    simp [getNews, getNewsCore, newsCollected, cleanSymbols, htok, hgen]

/-- Witness for C8: the fixture's 8-item payload (with one duplicate)
produces exactly the spec pipeline's output. -/
theorem general_path_refines_spec_witness :
    getNews envSym [] = .ok (generalSpecPipeline genPayload) :=
  (general_path_refines_spec envSym genPayload (by decide) rfl).1

/-- C3: whenever the symbol-driven path collects at least one item, the
returned list is sorted by `datetime` descending — recency order, not
round-robin placement, is the ordering of the final output. -/
theorem symbol_path_sorted_desc (env : NewsEnv) (symbols : List String)
    (ht : env.token ≠ "") (hc : newsCollected env symbols ≠ []) :
    ∃ res, getNews env symbols = .ok res ∧
      res.Pairwise (fun a b => b.datetime ≤ a.datetime) := by
  have hlen : 0 < (newsCollected env symbols).length := List.length_pos.mpr hc
  refine ⟨(sortByDatetimeDesc (newsCollected env symbols)).take 6, ?_, ?_⟩
  · simp only [getNews, getNewsCore]
    rw [if_neg ht, if_pos hlen]
  · exact List.Pairwise.sublist (List.take_sublist 6 _)
      (pairwise_sortByDatetimeDesc _)

/-- Witness for C3: the two-symbol fixture collects five items and the
output is sorted newest-first. -/
theorem symbol_path_sorted_desc_witness :
    ∃ res, getNews envSym ["AAPL", "MSFT"] = .ok res ∧
      res.Pairwise (fun a b => b.datetime ≤ a.datetime) :=
  symbol_path_sorted_desc envSym ["AAPL", "MSFT"] (by decide) (by decide)

/-- C2: with three distinct normalized symbols whose filtered lists each hold
at least two articles with valid heads, round 0 of the interleave takes
exactly one article from the head of each symbol's list, in the given symbol
order, so the first three collected items (before the final recency sort) are
those three heads. -/
theorem round_robin_round0_fairness (freshId : Nat → Int)
    (s1 s2 s3 : String) (m : String → List RawNewsArticle)
    (a1 a2 b1 b2 c1 c2 : RawNewsArticle)
    (l1 l2 l3 : List RawNewsArticle)
    (h12 : s1 ≠ s2) (h13 : s1 ≠ s3) (h23 : s2 ≠ s3)
    (hm1 : m s1 = a1 :: a2 :: l1) (hm2 : m s2 = b1 :: b2 :: l2)
    (hm3 : m s3 = c1 :: c2 :: l3)
    (hv1 : validateArticle a1 = true) (hv2 : validateArticle b1 = true)
    (hv3 : validateArticle c1 = true) :
    (roundRobin freshId [s1, s2, s3] m).take 3 =
      [formatArticle (freshId 0) a1 true (some s1) 0,
       formatArticle (freshId 1) b1 true (some s2) 0,
       formatArticle (freshId 2) c1 true (some s3) 0] := by
  have e12 : s2 ≠ s1 := Ne.symm h12
  have e13 : s3 ≠ s1 := Ne.symm h13
  have e23 : s3 ≠ s2 := Ne.symm h23
  have hpass : rrPass freshId 0 [s1, s2, s3] m [] =
      (updateMap (updateMap (updateMap m s1 (a2 :: l1)) s2 (b2 :: l2)) s3
        (c2 :: l3),
       [formatArticle (freshId 0) a1 true (some s1) 0,
        formatArticle (freshId 1) b1 true (some s2) 0,
        formatArticle (freshId 2) c1 true (some s3) 0]) := by
    simp [rrPass, hm1, hm2, hm3, hv1, hv2, hv3, updateMap, e12, e13, e23]
  have h0 : roundRobin freshId [s1, s2, s3] m =
      rrRounds freshId [s1, s2, s3] (5 + 1) 0 m [] := rfl
  rw [h0, rrRounds_succ, hpass]
  simp only []
  rw [if_neg (by simp)]
  obtain ⟨ext, hext⟩ := rrRounds_extends freshId [s1, s2, s3] 5 1
    (updateMap (updateMap (updateMap m s1 (a2 :: l1)) s2 (b2 :: l2)) s3
      (c2 :: l3))
    [formatArticle (freshId 0) a1 true (some s1) 0,
     formatArticle (freshId 1) b1 true (some s2) 0,
     formatArticle (freshId 2) c1 true (some s3) 0]
  rw [hext, List.take_append_of_le_length (by simp)]
  rfl

/-- Witness for C2: three concrete symbols with two valid articles each;
round 0 takes one from each head in symbol order. -/
theorem round_robin_round0_fairness_witness :
    (roundRobin (fun n => 1000 + (n : Int)) ["A", "B", "C"]
        (perSymbolMap envRR)).take 3 =
      [formatArticle 1000 (mkArt 1 10) true (some "A") 0,
       formatArticle 1001 (mkArt 3 20) true (some "B") 0,
       formatArticle 1002 (mkArt 5 30) true (some "C") 0] :=
  round_robin_round0_fairness (fun n => 1000 + (n : Int)) "A" "B" "C"
    (perSymbolMap envRR) (mkArt 1 10) (mkArt 2 9) (mkArt 3 20) (mkArt 4 19)
    (mkArt 5 30) (mkArt 6 29) [] [] []
    (by decide) (by decide) (by decide) (by decide) (by decide) (by decide)
    (by decide) (by decide) (by decide)

/-- C4: a thrown summarization stores a `null` summary for that recipient —
`null` exactly when summarization failed — recipients with a `null` summary
are silently skipped at delivery while every other recipient's delivery is
attempted, and when those attempted sends succeed the run still returns
`success: true` overall. -/
theorem digest_summarization_isolation (env : DigestEnv) (u : User)
    (articles : List MarketNewsArticle) :
    (summarizeOne env u articles = none ↔
      ∃ e, env.aiInfer u.email articles = .error e) ∧
    (∀ xs : List (User × Option String),
      (sendOutcomes env xs).map Prod.fst =
        xs.filterMap (fun p => p.2.map (fun _ => p.1.email))) ∧
    (env.users ≠ [] →
      sendStep env (summarizeStep env (fetchStep env)) = .ok () →
      runDailyDigest env =
        .ok ⟨true, "Daily news summary emails sent successfully"⟩) := by
  refine ⟨?_, fun xs => sendOutcomes_fst env xs, ?_⟩
  · cases han : env.aiInfer u.email articles with
    | error e => simp [summarizeOne, han]
    | ok part => simp [summarizeOne, han]
  · intro hu hsend
    have hlen : ¬ env.users.length = 0 := by
      simpa [List.length_eq_zero] using hu
    simp [runDailyDigest, hlen, hsend]

/-- Witness for C4: three recipients, summarization throws for the second;
their summary is `null`, the other deliveries go through, and the run
returns `success: true`. -/
theorem digest_summarization_isolation_witness :
    runDailyDigest envDigest =
      .ok ⟨true, "Daily news summary emails sent successfully"⟩ ∧
    summarizeOne envDigest user2 [] = none :=
  ⟨(digest_summarization_isolation envDigest user2 []).2.2 (by decide) rfl,
    (digest_summarization_isolation envDigest user2 []).1.mpr ⟨"ai down", rfl⟩⟩

/-- C6 counterexample: with one recipient holding a non-`null` summary whose
send rejects, the run propagates the rejection instead of returning
`success: true` — the claim that a failed send does not block the final
success return is false on the code. -/
theorem digest_send_failure_counterexample :
    runDailyDigest envSendFail = .error "smtp down" ∧
      ∀ res : RunResult, runDailyDigest envSendFail ≠ .ok res := by
  refine ⟨rfl, ?_⟩
  intro res h
  rw [show runDailyDigest envSendFail = .error "smtp down" from rfl] at h
  exact Except.noConfusion h

/-- C6 amended: delivery is attempted for every recipient with a non-`null`
summary and individual outcomes are not aggregated into the result; the run
returns `success: true` when every attempted send succeeds, but a rejected
send propagates out of the delivery step, so the run fails rather than
returning `success: true`. -/
theorem digest_send_failure_amended (env : DigestEnv)
    (hu : env.users ≠ []) :
    ((sendOutcomes env (summarizeStep env (fetchStep env))).map Prod.fst =
      (summarizeStep env (fetchStep env)).filterMap
        (fun p => p.2.map (fun _ => p.1.email))) ∧
    (sendStep env (summarizeStep env (fetchStep env)) = .ok () →
      runDailyDigest env =
        .ok ⟨true, "Daily news summary emails sent successfully"⟩) ∧
    (∀ e, sendStep env (summarizeStep env (fetchStep env)) = .error e →
      runDailyDigest env = .error e) := by
  have hlen : ¬ env.users.length = 0 := by
    simpa [List.length_eq_zero] using hu
  refine ⟨sendOutcomes_fst env _, ?_, ?_⟩
  · intro hsend
    simp [runDailyDigest, hlen, hsend]
  · intro e hsend
    simp [runDailyDigest, hlen, hsend]

/-- Witness for C6 amended: the failing-send fixture propagates the SMTP
error, and the all-success fixture returns `success: true`. -/
theorem digest_send_failure_amended_witness :
    runDailyDigest envSendFail = .error "smtp down" ∧
      runDailyDigest envAllOk =
        .ok ⟨true, "Daily news summary emails sent successfully"⟩ :=
  ⟨(digest_send_failure_amended envSendFail (by decide)).2.2 "smtp down" rfl,
    (digest_send_failure_amended envAllOk (by decide)).2.1 rfl⟩

/-- C10: `getWatchlistSymbolsByEmail` always returns an array and never
throws — it returns `[]` on an empty email, a failed connection, a missing
database handle, an unmatched user, a user with no usable id, or a rejected
watchlist query — and in the digest a recipient with an empty symbol list is
routed to the general news feed rather than the per-recipient error branch. -/
theorem watchlist_lookup_never_throws (env : WatchlistDbEnv)
    (email : String) :
    (email = "" → getWatchlistSymbolsByEmail env email = []) ∧
    (∀ e, env.connect = .error e →
      getWatchlistSymbolsByEmail env email = []) ∧
    (env.dbPresent = false → getWatchlistSymbolsByEmail env email = []) ∧
    (env.findUserByEmail email = .ok none →
      getWatchlistSymbolsByEmail env email = []) ∧
    (∀ u, env.findUserByEmail email = .ok (some u) → u.id = "" →
      u.mongoId = "" → getWatchlistSymbolsByEmail env email = []) ∧
    (∀ u e, env.findUserByEmail email = .ok (some u) →
      env.findWatchlist (if u.id ≠ "" then u.id else u.mongoId) = .error e →
      getWatchlistSymbolsByEmail env email = []) ∧
    (∀ (denv : DigestEnv) (u : User) (gen : List MarketNewsArticle),
      denv.watchlist u.email = [] → denv.news [] = .ok gen →
      fetchUserNewsOne denv u = gen.take 6) := by
  refine ⟨?_, ?_, ?_, ?_, ?_, ?_, ?_⟩
  · intro h
    simp [getWatchlistSymbolsByEmail, h]
  · intro e h
    by_cases he : email = "" <;>
      simp [getWatchlistSymbolsByEmail, getWatchlistSymbolsCore, he, h]
  · intro h
    by_cases he : email = "" <;>
      cases hc : env.connect <;>
        simp [getWatchlistSymbolsByEmail, getWatchlistSymbolsCore, he, h, hc]
  · intro h
    by_cases he : email = "" <;>
      cases hc : env.connect <;>
        by_cases hdb : env.dbPresent <;>
          simp [getWatchlistSymbolsByEmail, getWatchlistSymbolsCore, he, h,
            hc, hdb]
  · intro u h hid hmid
    by_cases he : email = "" <;>
      cases hc : env.connect <;>
        by_cases hdb : env.dbPresent <;>
          simp [getWatchlistSymbolsByEmail, getWatchlistSymbolsCore, he, h,
            hc, hdb, hid, hmid]
  · intro u e h hw
    by_cases he : email = "" <;>
      cases hc : env.connect <;>
        by_cases hdb : env.dbPresent <;>
          by_cases hid : u.id = "" <;>
            simp [getWatchlistSymbolsByEmail, getWatchlistSymbolsCore, he, h,
              hc, hdb, hid] <;>
              by_cases hmid : u.mongoId = "" <;>
                simp_all [getWatchlistSymbolsByEmail,
                  getWatchlistSymbolsCore]
  · intro denv u gen hw hng
    simp only [fetchUserNewsOne, hw, hng]
    by_cases hempty : (gen.take 6).isEmpty
    · rw [if_pos hempty]
    · rw [if_neg hempty]

/-- Witness for C10: empty email, a rejected watchlist query, and the
general-feed routing, each on a concrete fixture. -/
theorem watchlist_lookup_never_throws_witness :
    getWatchlistSymbolsByEmail dbEnvFix "" = [] ∧
    getWatchlistSymbolsByEmail dbEnvFix "a@x" = [] ∧
    fetchUserNewsOne envAllOk user1 = [sampleMarket].take 6 :=
  ⟨(watchlist_lookup_never_throws dbEnvFix "").1 rfl,
    (watchlist_lookup_never_throws dbEnvFix "a@x").2.2.2.2.2.1
      { id := "uid1", mongoId := "m1" } "db down" rfl rfl,
    (watchlist_lookup_never_throws dbEnvFix "a@x").2.2.2.2.2.2
      envAllOk user1 [sampleMarket] rfl rfl⟩

end StockTracker
